import Mathlib

/-!
Verification of the METAR/TAF enrichment core of AviationWeatherHA (src/app.py)
against its natural-language specification.

The Python code is shallowly embedded: Python numbers are modelled as ℤ/ℚ
(exact rational arithmetic in place of IEEE floats), Python's `None`, numbers,
strings and other objects by the inductive type `PyVal`, dictionaries with
string keys by association lists, fallible code by `Option`/`Except`, and an
uncaught Python exception by `Except.error`.  Each definition is translated
from the function of src/app.py named in its doc comment.
-/

set_option maxRecDepth 20000

namespace AviationWx

/-- A Python runtime value as used by the enrichment core: `None`, an `int`,
a `float` (modelled as an exact rational), a `str`, or some other truthy
object (`vobj r` carries its `str()` rendering). -/
inductive PyVal where
  | vnone
  | vint (n : ℤ)
  | vfloat (q : ℚ)
  | vstr (s : String)
  | vobj (r : String)
deriving DecidableEq, Repr

/-- A Python dict with string keys, as an association list (first binding wins,
matching dict-key uniqueness). -/
abbrev Dict := List (String × PyVal)

/-- `d[k]` / `d.get(k)`: value of the first binding of `k`, if any. -/
def dictGet (d : Dict) (k : String) : Option PyVal :=
  (d.find? (fun kv => kv.1 = k)).map (fun kv => kv.2)

/-- `d.get(k, v0)`. -/
def dictGetD (d : Dict) (k : String) (v0 : PyVal) : PyVal :=
  (dictGet d k).getD v0

/-- `k in d`. -/
def dictHas (d : Dict) (k : String) : Bool :=
  (dictGet d k).isSome

/-- Python truthiness of a `PyVal` (`bool(v)`). -/
def pyTruthy : PyVal → Bool
  | .vnone => false
  | .vint n => n ≠ 0
  | .vfloat q => q ≠ 0
  | .vstr s => s ≠ ""
  | .vobj _ => true

/-- ASCII whitespace stripped by Python's `str.strip()` / numeric parsing. -/
def isPyWS (c : Char) : Bool :=
  c = ' ' ∨ c = '\t' ∨ c = '\n' ∨ c = '\r' ∨ c = '\x0b' ∨ c = '\x0c'

/-- `str.strip()`. -/
def stripChars (s : List Char) : List Char :=
  ((s.dropWhile isPyWS).reverse.dropWhile isPyWS).reverse

def isDigitC (c : Char) : Bool :=
  ['0', '1', '2', '3', '4', '5', '6', '7', '8', '9'].contains c

def digitVal (c : Char) : ℕ := c.toNat - 48

/-- Numeric value of a digit string (most significant first). -/
def natOfDigits (l : List Char) : ℕ := l.foldl (fun a c => 10 * a + digitVal c) 0

/-- Exponent suffix of a Python float literal: empty, or `e`/`E`, optional
sign, digits. -/
def parseExpPart (base : ℚ) (s : List Char) : Option ℚ :=
  match s with
  | [] => some base
  | c :: t =>
    if c = 'e' ∨ c = 'E' then
      let st : ℤ × List Char :=
        if t.head? = some '+' then (1, t.tail)
        else if t.head? = some '-' then (-1, t.tail)
        else (1, t)
      if st.2 ≠ [] ∧ st.2.all isDigitC then
        some (base * (10 : ℚ) ^ (st.1 * (natOfDigits st.2 : ℤ)))
      else none
    else none

/-- Unsigned part of a Python float literal: `digits[.digits]` or `.digits`,
then an optional exponent. -/
def parseUnsignedFloat (s : List Char) : Option ℚ :=
  let intPart := s.takeWhile isDigitC
  let rest := s.dropWhile isDigitC
  if rest.head? = some '.' then
    let rest2 := rest.tail
    let fracPart := rest2.takeWhile isDigitC
    let rest3 := rest2.dropWhile isDigitC
    if intPart = [] ∧ fracPart = [] then none
    else
      parseExpPart
        ((natOfDigits intPart : ℚ) + (natOfDigits fracPart : ℚ) / (10 : ℚ) ^ fracPart.length)
        rest3
  else if intPart = [] then none
  else parseExpPart (natOfDigits intPart : ℚ) rest

/-- Python `float(str)` on a decimal literal: surrounding whitespace, optional
sign, digits with optional decimal point, optional exponent.  (`inf`, `nan`
and underscore separators are outside the model; no claim exercises them.) -/
def pyFloatOfChars (s : List Char) : Option ℚ :=
  let t := stripChars s
  if t.head? = some '+' then parseUnsignedFloat t.tail
  else if t.head? = some '-' then (parseUnsignedFloat t.tail).map (fun q => -q)
  else parseUnsignedFloat t

/-- Python `int(str)`: surrounding whitespace, optional sign, digits. -/
def pyIntOfChars (s : List Char) : Option ℤ :=
  let t := stripChars s
  if t.head? = some '+' then
    if t.tail ≠ [] ∧ t.tail.all isDigitC then some (natOfDigits t.tail : ℤ) else none
  else if t.head? = some '-' then
    if t.tail ≠ [] ∧ t.tail.all isDigitC then some (-(natOfDigits t.tail : ℤ)) else none
  else if t ≠ [] ∧ t.all isDigitC then some (natOfDigits t : ℤ) else none

/-- Python `float(v)` with every exception caught (the `_to_float` helper of
`fetch_metar`): `None` and non-numeric non-string objects yield absence. -/
def pyToFloat : PyVal → Option ℚ
  | .vint n => some (n : ℚ)
  | .vfloat q => some q
  | .vstr s => pyFloatOfChars s.data
  | _ => none

/-- Python `int(v)` with `ValueError`/`TypeError` caught: floats truncate
toward zero, strings parse as integer literals. -/
def pyToInt : PyVal → Option ℤ
  | .vint n => some n
  | .vfloat q => some (q.num.tdiv (q.den : ℤ))
  | .vstr s => pyIntOfChars s.data
  | _ => none

/-- `str(v)`.  Floats with denominator 1 render as Python does (`"5.0"`); the
decimal rendering of other floats is abbreviated (no claim depends on it). -/
def pyStr : PyVal → String
  | .vnone => "None"
  | .vint n => toString n
  | .vfloat q =>
    if q.den = 1 then toString q.num ++ ".0" else toString q.num ++ "/" ++ toString q.den
  | .vstr s => s
  | .vobj r => r

def upperChar (c : Char) : Char :=
  if 'a' ≤ c ∧ c ≤ 'z' then Char.ofNat (c.toNat - 32) else c

/-- `str.upper()` (ASCII). -/
def upperChars (s : List Char) : List Char := s.map upperChar

/-- Floor of a rational, computably (`⌊q⌋`; equal to `Int.floor`, see
`ratFloor_eq`). -/
def ratFloor (q : ℚ) : ℤ := q.num / (q.den : ℤ)

/-- Python `round(q)`: round half to even, to an integer. -/
def roundHalfEven (q : ℚ) : ℤ :=
  let f := ratFloor q
  let r := q - (f : ℚ)
  if r < 1 / 2 then f
  else if 1 / 2 < r then f + 1
  else if f % 2 = 0 then f else f + 1

/-- Python `round(q, 2)`: round half to even, to 2 decimal places. -/
def round2 (q : ℚ) : ℚ := (roundHalfEven (q * 100) : ℚ) / 100

/-! ## Visibility parsing (`parse_visibility`, src/app.py lines 542-574) -/

/-- `s.replace(c, '')` for a one-character pattern. -/
def removeAllChar (c : Char) (s : List Char) : List Char := s.filter (fun x => x ≠ c)

/-- `s.replace('SM', '')`: left-to-right, non-overlapping. -/
def removeSM : List Char → List Char
  | [] => []
  | [c] => [c]
  | c :: d :: t => if c = 'S' ∧ d = 'M' then removeSM t else c :: removeSM (d :: t)

/-- `'SM' in s`. -/
def hasSM : List Char → Bool
  | [] => false
  | [_] => false
  | c :: d :: t => (c = 'S' ∧ d = 'M') || hasSM (d :: t)

/-- `c in s` for a one-character pattern. -/
def containsChar (c : Char) (s : List Char) : Bool := s.any (fun x => x = c)

/-- The string pipeline of `parse_visibility` (src/app.py lines 555-571):
strip, uppercase, remove every `'+'`, then — when both `'P'` and `'SM'`
occur — remove every `'P'` and `'SM'`, then any remaining `'SM'`, and parse
the rest with `float()`. -/
def parse_visibility_str (s : List Char) : Option ℚ :=
  let vis0 := upperChars (stripChars s)
  let vis1 := if containsChar '+' vis0 then removeAllChar '+' vis0 else vis0
  let vis2 :=
    if containsChar 'P' vis1 ∧ hasSM vis1 then removeSM (removeAllChar 'P' vis1) else vis1
  let vis3 := if hasSM vis2 then removeSM vis2 else vis2
  pyFloatOfChars vis3

/-- `parse_visibility` (src/app.py lines 542-574): numbers pass through as
floats; other values are stringified and run through the string pipeline; any
parse failure yields `none` (the warning branch). -/
def parse_visibility (visib_value : PyVal) : Option ℚ :=
  match visib_value with
  | .vnone => none
  | .vint n => some (n : ℚ)
  | .vfloat q => some q
  | v => parse_visibility_str (pyStr v).data

/-! ## Flight category (`calculate_flight_category`, src/app.py lines 806-837) -/

/-- `ceiling_ft is not None and ceiling_ft < k`. -/
def ceilingBelow (c : Option ℤ) (k : ℤ) : Bool :=
  match c with
  | none => false
  | some x => x < k

/-- `ceiling_ft is not None and ceiling_ft ≤ k`. -/
def ceilingAtMost (c : Option ℤ) (k : ℤ) : Bool :=
  match c with
  | none => false
  | some x => x ≤ k

/-- `ceiling_ft is None or ceiling_ft > k`. -/
def ceilingAbsentOrAbove (c : Option ℤ) (k : ℤ) : Bool :=
  match c with
  | none => true
  | some x => x > k

/-- `calculate_flight_category` (src/app.py lines 806-837), for a non-null
visibility. -/
def calculate_flight_category (visibility_sm : ℚ) (ceiling_ft : Option ℤ) : String :=
  if visibility_sm > 5 ∧ ceilingAbsentOrAbove ceiling_ft 3000 then "VFR"
  else if visibility_sm < 1 ∨ ceilingBelow ceiling_ft 500 then "LIFR"
  else if visibility_sm < 3 ∨ ceilingBelow ceiling_ft 1000 then "IFR"
  else if visibility_sm ≤ 5 ∨ ceilingAtMost ceiling_ft 3000 then "MVFR"
  else "VFR"

/-- The Python-level call `calculate_flight_category(visibility_sm, ceiling_ft)`
where `visibility_sm` may be `None` (as `fetch_metar` passes it): the first
comparison `visibility_sm > 5` raises `TypeError` on `None`. -/
def calculate_flight_category_py (visibility_sm : Option ℚ) (ceiling_ft : Option ℤ) :
    Except Unit String :=
  match visibility_sm with
  | none => .error ()
  | some v => .ok (calculate_flight_category v ceiling_ft)

/-! ## Weather-code decoding (`decode_weather_codes`, src/app.py lines 1073-1125) -/

/-- The `descriptors` table, in source (dict-insertion) order. -/
def descriptors : List (String × String) :=
  [("MI", "Shallow"), ("PR", "Partial"), ("BC", "Patches"), ("DR", "Low Drifting"),
   ("BL", "Blowing"), ("SH", "Shower(s)"), ("TS", "Thunderstorm"), ("FZ", "Freezing")]

/-- The `phenomena` table, in source (dict-insertion) order. -/
def phenomena : List (String × String) :=
  [("DZ", "Drizzle"), ("RA", "Rain"), ("SN", "Snow"), ("SG", "Snow Grains"),
   ("IC", "Ice Crystals"), ("PL", "Ice Pellets"), ("GR", "Hail"), ("GS", "Small Hail"),
   ("UP", "Unknown Precipitation"), ("BR", "Mist"), ("FG", "Fog"), ("FU", "Smoke"),
   ("VA", "Volcanic Ash"), ("DU", "Dust"), ("SA", "Sand"), ("HZ", "Haze"),
   ("PY", "Spray"), ("PO", "Dust Whirls"), ("SQ", "Squalls"), ("FC", "Funnel Cloud"),
   ("SS", "Sandstorm"), ("DS", "Duststorm")]

/-- `s.startswith(p)` (pattern first). -/
def startsWithChars : List Char → List Char → Bool
  | [], _ => true
  | _ :: _, [] => false
  | p :: ps, c :: cs => p = c ∧ startsWithChars ps cs

/-- First table entry whose code is a prefix of `s` (table order = dict order). -/
def findPrefixIn (table : List (String × String)) (s : List Char) : Option (String × String) :=
  table.find? (fun kv => startsWithChars kv.1.data s)

/-- The phenomena loop of `decode_weather_codes`: repeatedly consume a leading
phenomenon code, appending its decoded text and a space; stop at the first
non-match.  Fuel (initially the string length) only bounds recursion: every
table code has length 2 > 0, so fuel never runs out first. -/
def phenomLoopAux : ℕ → List Char → String
  | 0, _ => ""
  | fuel + 1, s =>
    match s with
    | [] => ""
    | _ :: _ =>
      match findPrefixIn phenomena s with
      | some kv => kv.2 ++ " " ++ phenomLoopAux fuel (s.drop kv.1.length)
      | none => ""

def phenomLoop (s : List Char) : String := phenomLoopAux s.length s

/-- `decode_weather_codes` (src/app.py lines 1073-1125): strip one leading
intensity sign, then at most one leading descriptor, then leading phenomenon
codes repeatedly; return the space-joined decoded text stripped, falling back
to the (intensity/descriptor-stripped) remainder when nothing decoded. -/
def decode_weather_codes (wx : String) : String :=
  if wx = "" then ""
  else
    let w0 := wx.data
    let iw : String × List Char :=
      if w0.head? = some '-' then ("Light ", w0.tail)
      else if w0.head? = some '+' then ("Heavy ", w0.tail)
      else ("", w0)
    let dw : String × List Char :=
      match findPrefixIn descriptors iw.2 with
      | some kv => (iw.1 ++ kv.2 ++ " ", iw.2.drop kv.1.length)
      | none => (iw.1, iw.2)
    let decoded := dw.1 ++ phenomLoop dw.2
    let out := String.mk (stripChars decoded.data)
    if out = "" then String.mk dw.2 else out

/-! ## Cloud layers (`decode_cloud_layers`, src/app.py lines 1310-1400, and
`get_ceiling_from_clouds`, lines 783-803) -/

/-- The `cover_decode` table. -/
def cover_decode : List (String × String) :=
  [("SKC", "Sky Clear"), ("CLR", "Clear"), ("NSC", "No Significant Clouds"),
   ("FEW", "Few"), ("SCT", "Scattered"), ("BKN", "Broken"), ("OVC", "Overcast"),
   ("VV", "Vertical Visibility")]

/-- The `coverage_detail` table ("SCT" intentionally has no entry). -/
def coverage_detail : List (String × String) :=
  [("SKC", "0/8 (0%)"), ("CLR", "0/8 (0%)"), ("NSC", "0/8 (0%)"),
   ("FEW", "1-2/8 (12-25%)"), ("BKN", "5-7/8 (62-87%)"), ("OVC", "8/8 (100%)"),
   ("VV", "Sky Obscured")]

/-- The `cloud_types` table. -/
def cloud_types : List (String × String) :=
  [("CB", "Cumulonimbus"), ("TCU", "Towering Cumulus"), ("CI", "Cirrus"),
   ("CC", "Cirrocumulus"), ("CS", "Cirrostratus"), ("AC", "Altocumulus"),
   ("AS", "Altostratus"), ("NS", "Nimbostratus"), ("SC", "Stratocumulus"),
   ("ST", "Stratus"), ("CU", "Cumulus")]

/-- `table.get(code, code)`: table lookup keyed by strings; a non-string or
unknown code is returned unchanged (the verbatim-passthrough default). -/
def tableGetSelf (t : List (String × String)) (code : PyVal) : PyVal :=
  match code with
  | .vstr s =>
    match t.find? (fun kv => kv.1 = s) with
    | some kv => .vstr kv.2
    | none => .vstr s
  | v => v

/-- `table.get(code, '')`. -/
def tableGetEmpty (t : List (String × String)) (code : PyVal) : PyVal :=
  match code with
  | .vstr s =>
    match t.find? (fun kv => kv.1 = s) with
    | some kv => .vstr kv.2
    | none => .vstr ""
  | _ => .vstr ""

/-- Digit grouping by thousands on a reversed digit list. -/
def commaRev : List Char → List Char
  | a :: b :: c :: d :: t => a :: b :: c :: ',' :: commaRev (d :: t)
  | l => l

/-- Python `f"{n:,}"` for an integer: digits grouped in threes by commas. -/
def commaGroupInt (n : ℤ) : String :=
  if n < 0 then "-" ++ String.mk (commaRev (toString (-n)).data.reverse).reverse
  else String.mk (commaRev (toString n).data.reverse).reverse

/-- `int(q)` for a float: truncation toward zero. -/
def ratTrunc (q : ℚ) : ℤ := q.num.tdiv (q.den : ℤ)

/-- The fields of the METAR record that `decode_cloud_layers` reads
(`metar_data['clouds']`, `['cover']`, `['ceiling']`); `none` = key absent. -/
structure CloudSource where
  clouds : Option (List Dict)
  cover : Option PyVal
  ceiling : Option PyVal
deriving DecidableEq

/-- One iteration of the per-layer loop of `decode_cloud_layers`: decode the
`cover`, `base` and `type` fields of one cloud sub-record. -/
def decode_cloud_layer (cloud : Dict) : Dict :=
  (match dictGet cloud "cover" with
   | some cc =>
     [("cover", cc), ("cover_text", tableGetSelf cover_decode cc),
      ("coverage_detail", tableGetEmpty coverage_detail cc)]
   | none => []) ++
  (match dictGet cloud "base" with
   | some b =>
     [("altitude", b)] ++
     (match b with
      | .vint n =>
        [("altitude_agl", .vstr (commaGroupInt n ++ " ft AGL")),
         ("altitude_msl", .vstr ("~" ++ commaGroupInt n ++ " ft"))]
      | .vfloat q =>
        [("altitude_agl", .vstr (commaGroupInt (ratTrunc q) ++ " ft AGL")),
         ("altitude_msl", .vstr ("~" ++ commaGroupInt (ratTrunc q) ++ " ft"))]
      | _ => [])
   | none => []) ++
  (match dictGet cloud "type" with
   | some tv =>
     if pyTruthy tv then
       [("cloud_type", tableGetSelf cloud_types tv), ("cloud_type_code", tv)]
     else []
   | none => [])

/-- The `elif 'cover' in metar_data and metar_data['cover']` tier of
`decode_cloud_layers`: a single synthetic layer, only when the overall cover
code is a key of `cover_decode` (an unknown or non-string code yields no
layer). -/
def coverTier (m : CloudSource) : List Dict :=
  match m.cover with
  | some cv =>
    if pyTruthy cv then
      match cv with
      | .vstr s =>
        match cover_decode.find? (fun kv => kv.1 = s) with
        | some kv =>
          [[("cover", cv), ("cover_text", .vstr kv.2),
            ("coverage_detail", tableGetEmpty coverage_detail cv),
            ("altitude", .vnone), ("altitude_agl", .vnone), ("cloud_type", .vnone)]]
        | none => []
      | _ => []
    else []
  | none => []

/-- `decode_cloud_layers` (src/app.py lines 1310-1400).  The ceiling tier
formats `f"{ceiling:,}"`, which raises `ValueError` on a string ceiling
(modelled as `.error`); a non-integral float ceiling is outside the model. -/
def decode_cloud_layers (m : CloudSource) : Except Unit (List Dict) :=
  let base : List Dict :=
    match m.clouds with
    | some cl => if cl ≠ [] then cl.map decode_cloud_layer else coverTier m
    | none => coverTier m
  if base = [] then
    match m.ceiling with
    | some cv =>
      if pyTruthy cv then
        match cv with
        | .vint n =>
          .ok [[("cover", .vstr "Ceiling"), ("cover_text", .vstr "Ceiling"),
                ("altitude", cv), ("altitude_agl", .vstr (commaGroupInt n ++ " ft AGL"))]]
        | .vfloat q =>
          if q.den = 1 then
            .ok [[("cover", .vstr "Ceiling"), ("cover_text", .vstr "Ceiling"),
                  ("altitude", cv),
                  ("altitude_agl", .vstr (commaGroupInt q.num ++ ".0 ft AGL"))]]
          else .error ()
        | _ => .error ()
      else .ok []
    | none => .ok []
  else .ok base

/-- `get_ceiling_from_clouds` (src/app.py lines 783-803): first layer whose
(uppercased) cover is BKN/OVC/VV *and* whose base is present, non-null and
`int()`-convertible; layers failing the base test are skipped (`pass`).
`.upper()` on a present non-string cover raises `AttributeError` (uncaught,
modelled as `.error`). -/
def get_ceiling_from_clouds : List Dict → Except Unit (Option ℤ)
  | [] => .ok none
  | layer :: rest =>
    match dictGetD layer "cover" (.vstr "") with
    | .vstr s =>
      if String.mk (upperChars s.data) = "BKN" ∨ String.mk (upperChars s.data) = "OVC" ∨
          String.mk (upperChars s.data) = "VV" then
        match dictGet layer "base" with
        | some b =>
          if b ≠ .vnone then
            match pyToInt b with
            | some n => .ok (some n)
            | none => get_ceiling_from_clouds rest
          else get_ceiling_from_clouds rest
        | none => get_ceiling_from_clouds rest
      else get_ceiling_from_clouds rest
    | _ => .error ()

/-! ## Time localization (`convert_to_local_time`, src/app.py lines 1128-1164)

`datetime` values are modelled by the displayed wall-clock instant in integer
microseconds (seconds-since-epoch encoding of the displayed civil fields) plus
an optional UTC offset in minutes (`none` = naive).  The host timezone used by
`astimezone()` is a parameter `Tz`. -/

/-- The host's local timezone: a fixed UTC offset and a `%Z` name. -/
structure Tz where
  offsetMinutes : ℤ
  name : String
deriving DecidableEq

/-- A `datetime` value: displayed wall clock (µs since epoch encoding of the
displayed fields) and optional UTC offset (minutes). -/
structure PyDateTime where
  usec : ℤ
  off : Option ℤ
deriving DecidableEq, Repr

/-- Civil date from a day count (days since 1970-01-01, proleptic Gregorian). -/
def civilFromDays (z0 : ℤ) : ℤ × ℤ × ℤ :=
  let z := z0 + 719468
  let era := Int.fdiv z 146097
  let doe := z - era * 146097
  let yoe := (doe - doe / 1460 + doe / 36524 - doe / 146096) / 365
  let y := yoe + era * 400
  let doy := doe - (365 * yoe + yoe / 4 - yoe / 100)
  let mp := (5 * doy + 2) / 153
  let d := doy - (153 * mp + 2) / 5 + 1
  let m := mp + (if mp < 10 then 3 else -9)
  (y + (if m ≤ 2 then 1 else 0), m, d)

/-- Day count from a civil date (inverse of `civilFromDays`). -/
def daysFromCivil (y m d : ℤ) : ℤ :=
  let y1 := y - (if m ≤ 2 then 1 else 0)
  let era := Int.fdiv y1 400
  let yoe := y1 - era * 400
  let mp := if m > 2 then m - 3 else m + 9
  let doy := (153 * mp + 2) / 5 + d - 1
  let doe := yoe * 365 + yoe / 4 - yoe / 100 + doy
  era * 146097 + doe - 719468

/-- Displayed fields of a wall clock in µs: (year, month, day, hour, minute,
second, microsecond). -/
def usecFields (u : ℤ) : ℤ × ℤ × ℤ × ℤ × ℤ × ℤ × ℤ :=
  let sec := Int.fdiv u 1000000
  let micro := u - sec * 1000000
  let days := Int.fdiv sec 86400
  let sod := sec - days * 86400
  match civilFromDays days with
  | (y, m, d) => (y, m, d, sod / 3600, (sod / 60) % 60, sod % 60, micro)

/-- Zero-padded decimal rendering of a nonnegative integer. -/
def padNum (width : ℕ) (n : ℤ) : String :=
  let s := toString n
  if s.length < width then String.mk (List.replicate (width - s.length) '0' ++ s.data) else s

/-- `strftime('%Y-%m-%d %H:%M')` of a displayed wall clock. -/
def fmtYmdHM (u : ℤ) : String :=
  match usecFields u with
  | (y, m, d, hh, mi, _, _) =>
    padNum 4 y ++ "-" ++ padNum 2 m ++ "-" ++ padNum 2 d ++ " " ++
      padNum 2 hh ++ ":" ++ padNum 2 mi

/-- `strftime('%m/%d %H:%M')` of a displayed wall clock. -/
def fmtMdHM (u : ℤ) : String :=
  match usecFields u with
  | (_, m, d, hh, mi, _, _) =>
    padNum 2 m ++ "/" ++ padNum 2 d ++ " " ++ padNum 2 hh ++ ":" ++ padNum 2 mi

/-- `datetime.isoformat()` of an (aware or naive) datetime. -/
def isoFormat (dt : PyDateTime) : String :=
  match usecFields dt.usec with
  | (y, m, d, hh, mi, ss, micro) =>
    padNum 4 y ++ "-" ++ padNum 2 m ++ "-" ++ padNum 2 d ++ "T" ++
      padNum 2 hh ++ ":" ++ padNum 2 mi ++ ":" ++ padNum 2 ss ++
      (if micro ≠ 0 then "." ++ padNum 6 micro else "") ++
      (match dt.off with
       | none => ""
       | some o =>
         (if o < 0 then "-" else "+") ++ padNum 2 (|o| / 60) ++ ":" ++ padNum 2 (|o| % 60))

/-- `datetime.fromtimestamp(·, tz=timezone.utc)` on a whole number of
microseconds: range-check against `datetime.min`/`.max` (years 1..9999); out
of range raises (modelled as `.error`). -/
def fromtimestampUsec (u : ℤ) : Except Unit PyDateTime :=
  if -62135596800000000 ≤ u ∧ u ≤ 253402300799999999 then .ok ⟨u, some 0⟩
  else .error ()

/-- `datetime.fromtimestamp(t, tz=timezone.utc)` on a float: quantize to
microseconds (round half to even), then as above. -/
def fromtimestampUTC (t : ℚ) : Except Unit PyDateTime :=
  fromtimestampUsec (roundHalfEven (t * 1000000))

/-- `dt.astimezone()` with the host timezone `tz`: an aware datetime is shifted
to the `tz` wall clock; a naive datetime is interpreted as already reading the
host's local wall clock. -/
def astimezone (tz : Tz) (dt : PyDateTime) : PyDateTime :=
  match dt.off with
  | some o => ⟨dt.usec - o * 60000000 + tz.offsetMinutes * 60000000, some tz.offsetMinutes⟩
  | none => ⟨dt.usec, some tz.offsetMinutes⟩

def isLeap (y : ℤ) : Bool := (y % 4 = 0 ∧ y % 100 ≠ 0) ∨ y % 400 = 0

def daysInMonth (y m : ℤ) : ℤ :=
  if m = 2 then (if isLeap y then 29 else 28)
  else if m = 4 ∨ m = 6 ∨ m = 9 ∨ m = 11 then 30
  else 31

/-- Two-digit field value. -/
def num2 (a b : Char) : Option ℤ :=
  if isDigitC a ∧ isDigitC b then some ((10 * digitVal a + digitVal b : ℕ) : ℤ) else none

/-- Four-digit field value. -/
def num4 (a b c d : Char) : Option ℤ :=
  if isDigitC a ∧ isDigitC b ∧ isDigitC c ∧ isDigitC d then
    some ((1000 * digitVal a + 100 * digitVal b + 10 * digitVal c + digitVal d : ℕ) : ℤ)
  else none

/-- `s.replace('Z', '+00:00')` (applied before `fromisoformat`). -/
def replaceZ : List Char → List Char
  | [] => []
  | 'Z' :: t => '+' :: '0' :: '0' :: ':' :: '0' :: '0' :: replaceZ t
  | c :: t => c :: replaceZ t

/-- Trailing UTC-offset suffix of an ISO string: empty (naive) or `±HH:MM`. -/
def parseTzOff (s : List Char) : Option (Option ℤ) :=
  match s with
  | [] => some none
  | c :: h1 :: h2 :: ':' :: m1 :: m2 :: [] =>
    if c = '+' ∨ c = '-' then
      match num2 h1 h2, num2 m1 m2 with
      | some hv, some mv =>
        if hv ≤ 23 ∧ mv ≤ 59 then
          some (some ((if c = '-' then -1 else 1) * (hv * 60 + mv)))
        else none
      | _, _ => none
    else none
  | _ => none

/-- Fractional-second suffix: `.` then 1-6 digits, then an offset. -/
def parseFracOff (s : List Char) : Option (ℤ × Option ℤ) :=
  match s with
  | '.' :: rest =>
    let ds := rest.takeWhile isDigitC
    if ds.length = 0 ∨ 6 < ds.length then none
    else
      match parseTzOff (rest.dropWhile isDigitC) with
      | some o => some (((natOfDigits ds : ℤ) * (10 : ℤ) ^ (6 - ds.length), o))
      | none => none
  | _ =>
    match parseTzOff s with
    | some o => some ((0 : ℤ), o)
    | none => none

/-- Seconds (with optional fraction) and offset suffix of an ISO string, after
`HH:MM`. -/
def parseSecOff (s : List Char) : Option (ℤ × ℤ × Option ℤ) :=
  match s with
  | ':' :: s1 :: s2 :: rest =>
    match num2 s1 s2 with
    | some sv =>
      if sv ≤ 59 then
        match parseFracOff rest with
        | some fo => some (sv, fo.1, fo.2)
        | none => none
      else none
    | none => none
  | _ =>
    match parseTzOff s with
    | some o => some (0, 0, o)
    | none => none

/-- `datetime.fromisoformat` on the formats this feed can produce:
`YYYY-MM-DDTHH:MM[:SS[.ffffff]][±HH:MM]` with field range checks (a
representative subset of Python's accepted grammar; claims exercise no other
shape). -/
def fromIsoChars (s : List Char) : Option PyDateTime :=
  match s with
  | y1 :: y2 :: y3 :: y4 :: '-' :: m1 :: m2 :: '-' :: d1 :: d2 :: 'T' ::
      h1 :: h2 :: ':' :: n1 :: n2 :: rest =>
    match num4 y1 y2 y3 y4, num2 m1 m2, num2 d1 d2, num2 h1 h2, num2 n1 n2 with
    | some y, some mo, some dy, some hh, some mi =>
      if 1 ≤ y ∧ 1 ≤ mo ∧ mo ≤ 12 ∧ 1 ≤ dy ∧ dy ≤ daysInMonth y mo ∧ hh ≤ 23 ∧ mi ≤ 59 then
        match parseSecOff rest with
        | some (ss, micro, o) =>
          some ⟨(daysFromCivil y mo dy * 86400 + hh * 3600 + mi * 60 + ss) * 1000000 + micro, o⟩
        | none => none
      else none
    | _, _, _, _, _ => none
  | _ => none

/-- `datetime.strptime(s, '%Y-%m-%d %H:%M:%S')` followed by
`.replace(tzinfo=timezone.utc)`: the exact 19-character pattern with field
range checks (Python additionally tolerates 1-digit fields; no claim
exercises that). -/
def fromStrptimeChars (s : List Char) : Option PyDateTime :=
  match s with
  | y1 :: y2 :: y3 :: y4 :: '-' :: m1 :: m2 :: '-' :: d1 :: d2 :: ' ' ::
      h1 :: h2 :: ':' :: n1 :: n2 :: ':' :: s1 :: s2 :: [] =>
    match num4 y1 y2 y3 y4, num2 m1 m2, num2 d1 d2, num2 h1 h2, num2 n1 n2, num2 s1 s2 with
    | some y, some mo, some dy, some hh, some mi, some ss =>
      if 1 ≤ y ∧ 1 ≤ mo ∧ mo ≤ 12 ∧ 1 ≤ dy ∧ dy ≤ daysInMonth y mo ∧
          hh ≤ 23 ∧ mi ≤ 59 ∧ ss ≤ 59 then
        some ⟨(daysFromCivil y mo dy * 86400 + hh * 3600 + mi * 60 + ss) * 1000000, some 0⟩
      else none
    | _, _, _, _, _, _ => none
  | _ => none

/-- The success-path result dictionary of `convert_to_local_time` (`utc`,
`local`, `local_short`, `iso` — `local` is spelt `loc` as `local` is reserved
in Lean). -/
structure TimeDict where
  utc : String
  loc : String
  locShort : String
  iso : Option String
deriving DecidableEq, Repr

/-- Lines 1154-1161 of src/app.py: localize and format the parsed datetime. -/
def renderTimes (tz : Tz) (dt : PyDateTime) : TimeDict :=
  let ldt := astimezone tz dt
  { utc := fmtYmdHM dt.usec ++ " UTC",
    loc := fmtYmdHM ldt.usec ++ " " ++ tz.name,
    locShort := fmtMdHM ldt.usec,
    iso := some (isoFormat ldt) }

/-- The degraded result: `str(input)` in all three string slots, no `iso` key. -/
def fallbackTimes (v : PyVal) : TimeDict :=
  ⟨pyStr v, pyStr v, pyStr v, none⟩

/-- `convert_to_local_time` (src/app.py lines 1128-1164). -/
def convert_to_local_time (tz : Tz) (v : PyVal) : TimeDict :=
  if ¬ pyTruthy v then ⟨"", "", "", none⟩
  else
    match v with
    | .vint n =>
      match fromtimestampUsec (n * 1000000) with
      | .ok dt => renderTimes tz dt
      | .error _ => fallbackTimes v
    | .vfloat q =>
      match fromtimestampUTC q with
      | .ok dt => renderTimes tz dt
      | .error _ => fallbackTimes v
    | .vstr s =>
      match pyIntOfChars s.data with
      | some n =>
        match fromtimestampUsec (n * 1000000) with
        | .ok dt => renderTimes tz dt
        | .error _ => fallbackTimes v
      | none =>
        if containsChar 'T' s.data then
          match fromIsoChars (replaceZ s.data) with
          | some dt => renderTimes tz dt
          | none => fallbackTimes v
        else
          match fromStrptimeChars s.data with
          | some dt => renderTimes tz dt
          | none => fallbackTimes v
    | other => fallbackTimes other

/-! ## TAF period wind (`decode_taf_forecast`, src/app.py lines 1228-1244, and
its `deg_to_cardinal` helper, lines 1173-1182) -/

/-- The 16 compass sectors, in source order. -/
def dirs16 : List String :=
  ["N", "NNE", "NE", "ENE", "E", "ESE", "SE", "SSE",
   "S", "SSW", "SW", "WSW", "W", "WNW", "NW", "NNW"]

/-- Python `deg % 360` for a number (floor-based modulo). -/
def pymod360 (q : ℚ) : ℚ := q - 360 * (ratFloor (q / 360) : ℚ)

/-- `int((deg % 360) / 22.5 + 0.5) % 16`; the argument of `int()` is positive,
so truncation equals floor. -/
def cardIx (q : ℚ) : ℤ := ratFloor (pymod360 q / (45 / 2) + 1 / 2) % 16

def cardOfRat (q : ℚ) : String := dirs16.getD (cardIx q).toNat ""

/-- `deg_to_cardinal` (src/app.py lines 1173-1182): `None` for a null
direction; a non-numeric direction raises inside the helper's own
`try`/`except`, also yielding `None`. -/
def deg_to_cardinal (deg : PyVal) : Option String :=
  match deg with
  | .vint n => some (cardOfRat (n : ℚ))
  | .vfloat q => some (cardOfRat q)
  | _ => none

/-- `wdir == 0` (Python `==` against the int 0). -/
def pyEqZero : PyVal → Bool
  | .vint n => n = 0
  | .vfloat q => q = 0
  | _ => false

def pyTruthyOpt : Option PyVal → Bool
  | some v => pyTruthy v
  | none => false

/-- The wind block of one TAF forecast period (src/app.py lines 1228-1244):
inputs are the `wdir`/`wspd`/`wgst` entries (`none` = key absent), outputs the
`wind` value and the `wind_cardinal` entry (`none` = key never set). -/
def decode_period_wind (wdirK wspdK wgstK : Option PyVal) :
    Option String × Option (Option String) :=
  match wdirK, wspdK with
  | some wdir, some wspd =>
    let windTxt : Option String :=
      if wspd ≠ .vnone then
        let base :=
          if wdir = .vnone ∨ pyEqZero wdir then
            "VRB at " ++ pyStr wspd ++ " kt"
          else
            match deg_to_cardinal wdir with
            | some card => pyStr wdir ++ "° (" ++ card ++ ") at " ++ pyStr wspd ++ " kt"
            | none => pyStr wdir ++ "° at " ++ pyStr wspd ++ " kt"
        some
          (if pyTruthyOpt wgstK then base ++ " gusting " ++ pyStr (wgstK.getD .vnone) ++ " kt"
           else base)
      else none
    (windTxt, some (deg_to_cardinal wdir))
  | _, _ => (none, none)

/-! ## The enrichment step of `fetch_metar` (src/app.py lines 1425-1472) -/

/-- The fields of one raw METAR record that the enrichment step reads
(`none` = key absent from the provider record). -/
structure RawMetar where
  wxString : Option PyVal
  clouds : Option (List Dict)
  cover : Option PyVal
  ceiling : Option PyVal
  flightCategory : Option PyVal
  visib : Option PyVal
  obsTime : Option PyVal
  altim : Option PyVal
  press : Option PyVal
deriving DecidableEq

/-- The enrichment fields `fetch_metar` adds to the record (`none` = key not
set). -/
structure EnrichedMetar where
  wxDecoded : Option String
  cloudLayers : List Dict
  flightCategory : Option PyVal
  obsTimeLocal : Option TimeDict
  altimHpa : Option ℚ
  altimInHg : Option ℚ
deriving DecidableEq

/-- The altimeter/pressure normalization block (src/app.py lines 1443-1469):
result `(altimHpa, altimInHg)`; its surrounding `try` never fires in the model
since the arithmetic is total.  `0.02953` is the exact rational
`2953/100000`. -/
def normalize_pressure (altim press : Option PyVal) : Option ℚ × Option ℚ :=
  match pyToFloat (altim.getD .vnone) with
  | some a =>
    if a > 60 then (some a, some (round2 (a * (2953 / 100000))))
    else ((some ((roundHalfEven (a / (2953 / 100000)) : ℤ) : ℚ)), some (round2 a))
  | none =>
    match pyToFloat (press.getD .vnone) with
    | some p => (some p, some (round2 (p * (2953 / 100000))))
    | none => (none, none)

/-- The weather-decode statement of `fetch_metar` (src/app.py lines
1428-1429): decode `wxString` when present and truthy; a truthy non-string
value would raise inside `decode_weather_codes` (`.startswith` on a
non-string), modelled `.error`. -/
def enrich_wx (m : RawMetar) : Except Unit (Option String) :=
  match m.wxString with
  | some wv =>
    if pyTruthy wv then
      match wv with
      | .vstr s => .ok (some (decode_weather_codes s))
      | _ => .error ()
    else .ok none
  | none => .ok none

/-- The flight-category statement of `fetch_metar` (src/app.py lines
1433-1437): compute the category only when the source category is absent or
falsy, parsing `visib` with default 10 and extracting the ceiling from the
already-decoded `cloudLayers`. -/
def enrich_fc (m : RawMetar) (cloudLayers : List Dict) : Except Unit (Option PyVal) :=
  if ¬ pyTruthyOpt m.flightCategory then
    (get_ceiling_from_clouds cloudLayers).bind fun ceiling_ft =>
      (calculate_flight_category_py (parse_visibility (m.visib.getD (.vint 10)))
          ceiling_ft).bind fun cat => .ok (some (.vstr cat))
  else .ok m.flightCategory

/-- The enrichment portion of `fetch_metar` (src/app.py lines 1425-1472): the
record-level transformation applied to one fetched METAR.  Only `requests`
exceptions are caught by `fetch_metar`; any other exception raised by a
sub-step (modelled `.error`) propagates out of the enrichment. -/
def enrich_metar (tz : Tz) (m : RawMetar) : Except Unit EnrichedMetar :=
  (enrich_wx m).bind fun wxDecoded =>
    (decode_cloud_layers ⟨m.clouds, m.cover, m.ceiling⟩).bind fun cloudLayers =>
      (enrich_fc m cloudLayers).bind fun fc =>
        Except.ok
          { wxDecoded := wxDecoded, cloudLayers := cloudLayers, flightCategory := fc,
            obsTimeLocal :=
              match m.obsTime with
              | some ov => some (convert_to_local_time tz ov)
              | none => none,
            altimHpa := (normalize_pressure m.altim m.press).1,
            altimInHg := (normalize_pressure m.altim m.press).2 }

/-! ## Definitions written from the claims (for refinement comparisons only;
each is named `claim_...` and follows the claim's words, not the source) -/

/-- C7's reading of ceiling extraction: the base altitude of the first layer
whose cover code is BKN, OVC or VV; absent when no such layer exists. -/
def claim_ceiling_of_layers (layers : List Dict) : Option PyVal :=
  (layers.find? fun l =>
    match dictGet l "cover" with
    | some (.vstr s) => s = "BKN" ∨ s = "OVC" ∨ s = "VV"
    | _ => false).bind fun l => dictGet l "base"

/-- The usable-ceiling test of one layer, mirroring the conditions of
`get_ceiling_from_clouds`: a BKN/OVC/VV cover with a present, non-null,
`int()`-convertible base. -/
def usableCeiling (l : Dict) : Option ℤ :=
  match dictGetD l "cover" (.vstr "") with
  | .vstr s =>
    if String.mk (upperChars s.data) = "BKN" ∨ String.mk (upperChars s.data) = "OVC" ∨
        String.mk (upperChars s.data) = "VV" then
      match dictGet l "base" with
      | some b => if b ≠ .vnone then pyToInt b else none
      | none => none
    else none
  | _ => none

/-- Conventional rounding, half away from zero upward ("round" in claim C6's
`round(deg/22.5) mod 16`). -/
def roundHalfUp (q : ℚ) : ℤ := ⌊q + 1 / 2⌋

/-- C8's parse attempt (a): Unix epoch seconds for numeric values and
numeric-looking strings. -/
def claim_epoch_attempt : PyVal → Option PyDateTime
  | .vint n => (fromtimestampUsec (n * 1000000)).toOption
  | .vfloat q => (fromtimestampUTC q).toOption
  | .vstr s => (pyIntOfChars s.data).bind fun n => (fromtimestampUsec (n * 1000000)).toOption
  | _ => none

/-- C8's parse attempt (b): ISO-8601 when the string contains a literal 'T'. -/
def claim_iso_attempt : PyVal → Option PyDateTime
  | .vstr s => if containsChar 'T' s.data then fromIsoChars (replaceZ s.data) else none
  | _ => none

/-- C8's parse attempt (c): the fixed `YYYY-MM-DD HH:MM:SS` pattern as UTC. -/
def claim_strptime_attempt : PyVal → Option PyDateTime
  | .vstr s => fromStrptimeChars s.data
  | _ => none

/-- The time localizer as claim C8 states it: attempts (a), (b), (c) in order,
first success wins; if all fail, the original input is returned unchanged in
all three string slots. -/
def claim_time_localizer (tz : Tz) (v : PyVal) : TimeDict :=
  match claim_epoch_attempt v with
  | some dt => renderTimes tz dt
  | none =>
    match claim_iso_attempt v with
    | some dt => renderTimes tz dt
    | none =>
      match claim_strptime_attempt v with
      | some dt => renderTimes tz dt
      | none => fallbackTimes v

/-! ## Helper lemmas -/

theorem ne_of_bool_ne {p : Char → Bool} {c x : Char} (h : p c = true) (hx : p x = false) :
    c ≠ x := fun he => by rw [he, hx] at h; exact Bool.noConfusion h

theorem ratFloor_eq (q : ℚ) : ratFloor q = ⌊q⌋ := Rat.floor_def.symm

theorem digit_mem {c : Char} (h : isDigitC c = true) :
    c = '0' ∨ c = '1' ∨ c = '2' ∨ c = '3' ∨ c = '4' ∨ c = '5' ∨ c = '6' ∨ c = '7' ∨
      c = '8' ∨ c = '9' := by
  have hm : c ∈ ['0', '1', '2', '3', '4', '5', '6', '7', '8', '9'] := List.elem_iff.mp h
  simpa using hm

theorem digit_not_ws {c : Char} (h : isDigitC c = true) : isPyWS c = false := by
  rcases digit_mem h with rfl | rfl | rfl | rfl | rfl | rfl | rfl | rfl | rfl | rfl <;> rfl

theorem digit_upper {c : Char} (h : isDigitC c = true) : upperChar c = c := by
  rcases digit_mem h with rfl | rfl | rfl | rfl | rfl | rfl | rfl | rfl | rfl | rfl <;> rfl

theorem ws_mem {c : Char} (h : isPyWS c = true) :
    c = ' ' ∨ c = '\t' ∨ c = '\n' ∨ c = '\r' ∨ c = '\x0b' ∨ c = '\x0c' := by
  simpa [isPyWS] using h

theorem dropWhile_eq_self_of (p : Char → Bool) (l : List Char)
    (h : ∀ c ∈ l, p c = false) : l.dropWhile p = l := by
  cases l with
  | nil => rfl
  | cons a t => rw [List.dropWhile_cons, h a (by simp)]; simp

theorem takeWhile_eq_self_of (p : Char → Bool) (l : List Char)
    (h : ∀ c ∈ l, p c = true) : l.takeWhile p = l := by
  induction l with
  | nil => rfl
  | cons a t ih =>
    rw [List.takeWhile_cons, h a (by simp)]
    simp [ih fun c hc => h c (by simp [hc])]

theorem dropWhile_eq_nil_of (p : Char → Bool) (l : List Char)
    (h : ∀ c ∈ l, p c = true) : l.dropWhile p = [] := by
  induction l with
  | nil => rfl
  | cons a t ih =>
    rw [List.dropWhile_cons, h a (by simp)]
    simp [ih fun c hc => h c (by simp [hc])]

theorem stripChars_eq_self (l : List Char) (h : ∀ c ∈ l, isPyWS c = false) :
    stripChars l = l := by
  unfold stripChars
  rw [dropWhile_eq_self_of _ _ h,
    dropWhile_eq_self_of _ _ (fun c hc => h c (List.mem_reverse.mp hc)), List.reverse_reverse]

/-- Every string is whitespace, then its stripped core, then whitespace. -/
theorem strip_decomp (l : List Char) :
    ∃ pre post, l = pre ++ stripChars l ++ post ∧ (∀ c ∈ pre, isPyWS c = true) ∧
      (∀ c ∈ post, isPyWS c = true) := by
  refine ⟨l.takeWhile isPyWS, ((l.dropWhile isPyWS).reverse.takeWhile isPyWS).reverse,
    ?_, ?_, ?_⟩
  · conv_lhs => rw [← List.takeWhile_append_dropWhile isPyWS l]
    rw [List.append_assoc]
    congr 1
    unfold stripChars
    conv_lhs =>
      rw [← List.reverse_reverse (l.dropWhile isPyWS),
        ← List.takeWhile_append_dropWhile isPyWS (l.dropWhile isPyWS).reverse]
    rw [List.reverse_append]
  · intro c hc
    exact List.all_eq_true.mp (List.all_takeWhile ..) c hc
  · intro c hc
    exact List.all_eq_true.mp (List.all_takeWhile ..) c (List.mem_reverse.mp hc)

theorem containsChar_eq_false (c : Char) (l : List Char) (h : ∀ x ∈ l, x ≠ c) :
    containsChar c l = false := by
  unfold containsChar
  rw [List.any_eq_false]
  intro x hx
  simp [h x hx]

theorem containsChar_eq_true (c : Char) (l : List Char) (h : c ∈ l) :
    containsChar c l = true := by
  unfold containsChar
  rw [List.any_eq_true]
  exact ⟨c, h, by simp⟩

/-- All-digit strings parse as decimal naturals under Python `float()`. -/
theorem pyFloat_digits (l : List Char) (h0 : l ≠ []) (h : ∀ c ∈ l, isDigitC c = true) :
    pyFloatOfChars l = some (natOfDigits l : ℚ) := by
  obtain ⟨a, t, rfl⟩ := List.exists_cons_of_ne_nil h0
  have hs : stripChars (a :: t) = a :: t :=
    stripChars_eq_self _ (fun c hc => digit_not_ws (h c hc))
  have ha : isDigitC a = true := h a (by simp)
  have hne1 : (a :: t).head? ≠ some '+' := by
    intro he
    exact ne_of_bool_ne ha (show isDigitC '+' = false by decide) (by injection he)
  have hne2 : (a :: t).head? ≠ some '-' := by
    intro he
    exact ne_of_bool_ne ha (show isDigitC '-' = false by decide) (by injection he)
  unfold pyFloatOfChars
  rw [hs, if_neg hne1, if_neg hne2]
  unfold parseUnsignedFloat
  rw [takeWhile_eq_self_of _ _ h, dropWhile_eq_nil_of _ _ h]
  simp [parseExpPart]

/-! ## Claims -/

/-- C2: the flight-category classifier applies, in this fixed first-match
order, VFR (vis > 5 and ceiling absent or > 3000), LIFR (vis < 1 or
ceiling < 500), IFR (vis < 3 or ceiling < 1000), MVFR (vis ≤ 5 or
ceiling ≤ 3000), else VFR — with the ceiling predicates characterized
explicitly — and the five boundary examples (6, none) ↦ VFR,
(4, 2000) ↦ MVFR, (2, 800) ↦ IFR, (0.5, 400) ↦ LIFR, (5, 3000) ↦ MVFR. -/
theorem c2_flight_category_rules :
    (∀ (v : ℚ) (c : Option ℤ),
      calculate_flight_category v c =
        if v > 5 ∧ ceilingAbsentOrAbove c 3000 then "VFR"
        else if v < 1 ∨ ceilingBelow c 500 then "LIFR"
        else if v < 3 ∨ ceilingBelow c 1000 then "IFR"
        else if v ≤ 5 ∨ ceilingAtMost c 3000 then "MVFR"
        else "VFR") ∧
    (∀ (c : Option ℤ) (k : ℤ),
      ceilingAbsentOrAbove c k = true ↔ c = none ∨ ∃ x, c = some x ∧ k < x) ∧
    (∀ (c : Option ℤ) (k : ℤ), ceilingBelow c k = true ↔ ∃ x, c = some x ∧ x < k) ∧
    (∀ (c : Option ℤ) (k : ℤ), ceilingAtMost c k = true ↔ ∃ x, c = some x ∧ x ≤ k) ∧
    calculate_flight_category 6 none = "VFR" ∧
    calculate_flight_category 4 (some 2000) = "MVFR" ∧
    calculate_flight_category 2 (some 800) = "IFR" ∧
    calculate_flight_category (1 / 2) (some 400) = "LIFR" ∧
    calculate_flight_category 5 (some 3000) = "MVFR" := by
  refine ⟨fun v c => rfl, ?_, ?_, ?_,
    by norm_num [calculate_flight_category, ceilingAbsentOrAbove],
    by norm_num [calculate_flight_category, ceilingAbsentOrAbove, ceilingBelow, ceilingAtMost],
    by norm_num [calculate_flight_category, ceilingAbsentOrAbove, ceilingBelow],
    by norm_num [calculate_flight_category, ceilingAbsentOrAbove, ceilingBelow],
    by norm_num [calculate_flight_category, ceilingAbsentOrAbove, ceilingBelow, ceilingAtMost]⟩
  · intro c k; cases c <;> simp [ceilingAbsentOrAbove]
  · intro c k; cases c <;> simp [ceilingBelow]
  · intro c k; cases c <;> simp [ceilingAtMost]

/-- C3: the unit normalizer treats a numeric altimeter value v > 60 as hPa
(hPa = v, inHg = round₂(v × 0.02953)), v ≤ 60 as inHg (inHg = round₂(v),
hPa = round(v / 0.02953)); with no altimeter value but a pressure value p it
yields hPa = p, inHg = round₂(p × 0.02953); with neither, both are absent.
Rounding is Python's round (half to even), and 0.02953 is exact. -/
theorem c3_unit_normalizer :
    (∀ (a : ℚ) (altim press : Option PyVal), pyToFloat (altim.getD .vnone) = some a →
      (60 < a →
        normalize_pressure altim press = (some a, some (round2 (a * (2953 / 100000))))) ∧
      (a ≤ 60 →
        normalize_pressure altim press =
          (some ((roundHalfEven (a / (2953 / 100000)) : ℤ) : ℚ), some (round2 a)))) ∧
    (∀ (p : ℚ) (altim press : Option PyVal), pyToFloat (altim.getD .vnone) = none →
      pyToFloat (press.getD .vnone) = some p →
      normalize_pressure altim press = (some p, some (round2 (p * (2953 / 100000))))) ∧
    (∀ altim press : Option PyVal, pyToFloat (altim.getD .vnone) = none →
      pyToFloat (press.getD .vnone) = none →
      normalize_pressure altim press = (none, none)) := by
  refine ⟨?_, ?_, ?_⟩
  · intro a altim press h
    constructor
    · intro h60
      unfold normalize_pressure
      simp only [h]
      rw [if_pos h60]
    · intro h60
      unfold normalize_pressure
      simp only [h]
      rw [if_neg (not_lt.mpr h60)]
  · intro p altim press h hp
    unfold normalize_pressure
    simp only [h, hp]
  · intro altim press h hp
    unfold normalize_pressure
    simp only [h, hp]

/-- Witness for C3 at concrete inputs: altimeter 1013 (hPa branch),
29.92 (inHg branch), pressure-only 1013, and neither. -/
theorem c3_unit_normalizer_witness :
    normalize_pressure (some (.vfloat 1013)) none =
      (some 1013, some (round2 (1013 * (2953 / 100000)))) ∧
    round2 (1013 * (2953 / 100000)) = 2991 / 100 ∧
    normalize_pressure (some (.vfloat (2992 / 100))) none =
      (some ((roundHalfEven ((2992 / 100) / (2953 / 100000)) : ℤ) : ℚ),
       some (round2 (2992 / 100))) ∧
    (roundHalfEven ((2992 / 100 : ℚ) / (2953 / 100000)) : ℤ) = 1013 ∧
    normalize_pressure none (some (.vint 1013)) =
      (some 1013, some (round2 (1013 * (2953 / 100000)))) ∧
    normalize_pressure none none = (none, none) :=
  ⟨((c3_unit_normalizer.1 1013 (some (.vfloat 1013)) none rfl).1 (by norm_num)),
   by norm_num [round2, roundHalfEven, ratFloor],
   ((c3_unit_normalizer.1 (2992 / 100) (some (.vfloat (2992 / 100))) none rfl).2 (by norm_num)),
   by norm_num [roundHalfEven, ratFloor],
   (c3_unit_normalizer.2.1 1013 none (some (.vint 1013)) rfl rfl),
   (c3_unit_normalizer.2.2 none none rfl rfl)⟩

theorem stringMk_data (s : String) : String.mk s.data = s := rfl

theorem dictGet_append_of_skip (l1 l2 : Dict) (k : String)
    (h : ∀ kv ∈ l1, ¬ kv.1 = k) : dictGet (l1 ++ l2) k = dictGet l2 k := by
  unfold dictGet
  rw [List.find?_append, List.find?_eq_none.mpr (fun kv hkv => by simp [h kv hkv])]
  rfl

theorem phenomLoop_none (s : List Char) (h : findPrefixIn phenomena s = none) :
    phenomLoop s = "" := by
  cases s with
  | nil => rfl
  | cons c t => simp [phenomLoop, phenomLoopAux, h]

theorem exceptBind_ok {α β γ : Type} {x : Except γ α} {f : α → Except γ β} {b : β}
    (h : x.bind f = .ok b) : ∃ a, x = .ok a ∧ f a = .ok b := by
  cases x with
  | error e => exact absurd h (by simp [Except.bind])
  | ok a => exact ⟨a, rfl, by simpa [Except.bind] using h⟩

/-- C5: the weather decoder yields "Heavy Thunderstorm Rain" for "+TSRA",
"Light Rain" for "-RA", "Mist" for "BR"; and whenever nothing decodes (no
intensity sign, no descriptor prefix, no phenomenon prefix), the original
code string is returned unchanged, e.g. "XY". -/
theorem c5_weather_decoder :
    decode_weather_codes "+TSRA" = "Heavy Thunderstorm Rain" ∧
    decode_weather_codes "-RA" = "Light Rain" ∧
    decode_weather_codes "BR" = "Mist" ∧
    decode_weather_codes "XY" = "XY" ∧
    (∀ w : String, w.data.head? ≠ some '-' → w.data.head? ≠ some '+' →
      findPrefixIn descriptors w.data = none → findPrefixIn phenomena w.data = none →
      decode_weather_codes w = w) := by
  refine ⟨rfl, rfl, rfl, rfl, ?_⟩
  intro w h1 h2 hd hp
  by_cases hw : w = ""
  · subst hw; rfl
  · simp only [decode_weather_codes, if_neg hw, if_neg h1, if_neg h2, hd,
      phenomLoop_none _ hp]
    exact stringMk_data w

/-- Witness for C5's general fallback clause at the concrete code "ZZTOP". -/
theorem c5_weather_decoder_witness : decode_weather_codes "ZZTOP" = "ZZTOP" :=
  c5_weather_decoder.2.2.2.2 "ZZTOP" (by decide) (by decide) (by decide) (by decide)

/-- C1 (code-bug evidence): on a METAR whose `flightCategory` is absent and
whose `visib` is present but unparseable ("XYZ"), `parse_visibility` returns
`None`, `calculate_flight_category(None, …)` raises `TypeError` at
`visibility_sm > 5`, and — since `fetch_metar` catches only `requests`
exceptions — the whole enrichment aborts instead of degrading one field. -/
theorem c1_enrichment_aborts :
    parse_visibility (.vstr "XYZ") = none ∧
    calculate_flight_category_py none none = .error () ∧
    enrich_metar ⟨0, "UTC"⟩
        ⟨none, none, none, none, none, some (.vstr "XYZ"), none, none, none⟩ =
      .error () :=
  ⟨rfl, rfl, rfl⟩

/-- C9 counterexample: in the single overall-sky-cover fallback path, an
unknown cover code ("XXX") is dropped — no layer is produced at all — whereas
the claim requires a layer carrying "XXX" as both code and text. -/
theorem c9_counterexample :
    decode_cloud_layers ⟨none, some (.vstr "XXX"), none⟩ = .ok [] := rfl

/-- C9 amended: unknown cover and cloud-type codes pass through verbatim as
both code and text in the per-layer-array path; in the overall-sky-cover
fallback path an unknown cover code instead produces no layer. -/
theorem c9_unknown_code_passthrough :
    (∀ (code : String) (rest : Dict),
      cover_decode.find? (fun kv => kv.1 = code) = none →
      dictGet (decode_cloud_layer (("cover", .vstr code) :: rest)) "cover" =
        some (.vstr code) ∧
      dictGet (decode_cloud_layer (("cover", .vstr code) :: rest)) "cover_text" =
        some (.vstr code)) ∧
    (∀ (code : String) (cloud : Dict),
      cloud_types.find? (fun kv => kv.1 = code) = none →
      dictGet cloud "type" = some (.vstr code) → code ≠ "" →
      dictGet (decode_cloud_layer cloud) "cloud_type" = some (.vstr code) ∧
      dictGet (decode_cloud_layer cloud) "cloud_type_code" = some (.vstr code)) ∧
    (∀ code : String, code ≠ "" →
      cover_decode.find? (fun kv => kv.1 = code) = none →
      decode_cloud_layers ⟨none, some (.vstr code), none⟩ = .ok []) := by
  refine ⟨?_, ?_, ?_⟩
  · intro code rest h
    constructor <;>
      simp [decode_cloud_layer, dictGet, tableGetSelf, h, List.find?_append]
  · intro code cloud h ht hne
    have hp : pyTruthy (.vstr code) = true := by simp [pyTruthy, hne]
    have hk : ∀ k : String, k = "cloud_type" ∨ k = "cloud_type_code" →
        dictGet (decode_cloud_layer cloud) k =
          dictGet [("cloud_type", tableGetSelf cloud_types (.vstr code)),
                   ("cloud_type_code", .vstr code)] k := by
      intro k hkk
      unfold decode_cloud_layer
      rw [ht, List.append_assoc]
      rw [dictGet_append_of_skip _ _ k (by
        rcases hkk with rfl | rfl <;> rcases dictGet cloud "cover" with _ | cc <;> simp)]
      rw [dictGet_append_of_skip _ _ k (by
        rcases hkk with rfl | rfl <;> rcases dictGet cloud "base" with _ | b
        · simp
        · cases b <;> simp
        · simp
        · cases b <;> simp)]
      simp [hp]
    constructor
    · rw [hk "cloud_type" (Or.inl rfl)]
      simp [dictGet, tableGetSelf, h]
    · rw [hk "cloud_type_code" (Or.inr rfl)]
      simp [dictGet]
  · intro code hne h
    simp [decode_cloud_layers, coverTier, pyTruthy, hne, h]

/-- Witness for C9's amended clauses at the concrete unknown codes "XQZ"
(cover, per-layer), "ZZ" (cloud type), and "QQQ" (overall-cover fallback). -/
theorem c9_unknown_code_passthrough_witness :
    dictGet (decode_cloud_layer [("cover", .vstr "XQZ")]) "cover" = some (.vstr "XQZ") ∧
    dictGet (decode_cloud_layer [("cover", .vstr "XQZ")]) "cover_text" = some (.vstr "XQZ") ∧
    dictGet (decode_cloud_layer [("type", .vstr "ZZ")]) "cloud_type" = some (.vstr "ZZ") ∧
    dictGet (decode_cloud_layer [("type", .vstr "ZZ")]) "cloud_type_code" =
      some (.vstr "ZZ") ∧
    decode_cloud_layers ⟨none, some (.vstr "QQQ"), none⟩ = .ok [] :=
  ⟨(c9_unknown_code_passthrough.1 "XQZ" [] (by decide)).1,
   (c9_unknown_code_passthrough.1 "XQZ" [] (by decide)).2,
   (c9_unknown_code_passthrough.2.1 "ZZ" [("type", .vstr "ZZ")] (by decide) rfl
      (by decide)).1,
   (c9_unknown_code_passthrough.2.1 "ZZ" [("type", .vstr "ZZ")] (by decide) rfl
      (by decide)).2,
   c9_unknown_code_passthrough.2.2 "QQQ" (by decide) (by decide)⟩

/-- C10: when a raw METAR lacks a `flightCategory` and the `visib` key is
missing entirely, the orchestrator parses the default 10 (so the visibility
is 10 SM), and an observation whose decoded layers yield no BKN/OVC/VV
ceiling is classified VFR. -/
theorem c10_missing_visibility_default (tz : Tz) (m : RawMetar)
    (hfc : m.flightCategory = none) (hv : m.visib = none)
    (ls : List Dict) (hls : decode_cloud_layers ⟨m.clouds, m.cover, m.ceiling⟩ = .ok ls)
    (hceil : get_ceiling_from_clouds ls = .ok none)
    (e : EnrichedMetar) (he : enrich_metar tz m = .ok e) :
    parse_visibility (m.visib.getD (.vint 10)) = some 10 ∧
    e.flightCategory = some (.vstr "VFR") := by
  constructor
  · rw [hv]; rfl
  · have hfcstep : enrich_fc m ls = .ok (some (.vstr "VFR")) := by
      unfold enrich_fc
      rw [hfc, hv, hceil]
      rfl
    unfold enrich_metar at he
    obtain ⟨w, hw, he⟩ := exceptBind_ok he
    rw [hls] at he
    simp only [Except.bind] at he
    rw [hfcstep] at he
    simp only [Except.bind] at he
    cases he
    rfl

/-- Witness for C10: the fully-absent raw record enriches to flight category
VFR. -/
theorem c10_missing_visibility_default_witness :
    enrich_metar ⟨0, "UTC"⟩ ⟨none, none, none, none, none, none, none, none, none⟩ =
      .ok ⟨none, [], some (.vstr "VFR"), none, none, none⟩ ∧
    (⟨none, [], some (.vstr "VFR"), none, none, none⟩ : EnrichedMetar).flightCategory =
      some (.vstr "VFR") :=
  ⟨rfl,
   (c10_missing_visibility_default ⟨0, "UTC"⟩
      ⟨none, none, none, none, none, none, none, none, none⟩ rfl rfl [] rfl rfl
      ⟨none, [], some (.vstr "VFR"), none, none, none⟩ rfl).2⟩

/-- C7 counterexample: the first BKN/OVC/VV layer carries no base, and the
scan continues to a later layer's base (2000) instead of returning the first
matching layer's (absent) base altitude as the claim states. -/
theorem c7_counterexample :
    get_ceiling_from_clouds
        [[("cover", PyVal.vstr "BKN")],
         [("cover", PyVal.vstr "OVC"), ("base", PyVal.vint 2000)]] = .ok (some 2000) ∧
    claim_ceiling_of_layers
        [[("cover", PyVal.vstr "BKN")],
         [("cover", PyVal.vstr "OVC"), ("base", PyVal.vint 2000)]] = none :=
  ⟨rfl, rfl⟩

/-- C7 amended: ceiling extraction scans layers in source order and returns
the `int()`-converted base of the first layer whose (uppercased) cover code
is BKN, OVC or VV *and* whose base is present, non-null and convertible;
matching layers without a usable base are skipped, and if no layer qualifies
the result is absent (never zero). -/
theorem c7_ceiling_scan (layers : List Dict)
    (h : ∀ l ∈ layers, ∃ s, dictGetD l "cover" (.vstr "") = .vstr s) :
    get_ceiling_from_clouds layers = .ok (layers.findSome? usableCeiling) := by
  induction layers with
  | nil => rfl
  | cons l rest ih =>
    obtain ⟨s, hs⟩ := h l (by simp)
    have ih' := ih fun x hx => h x (by simp [hx])
    rw [List.findSome?_cons]
    unfold get_ceiling_from_clouds usableCeiling
    simp only [hs]
    by_cases hc : String.mk (upperChars s.data) = "BKN" ∨
        String.mk (upperChars s.data) = "OVC" ∨ String.mk (upperChars s.data) = "VV"
    · simp only [if_pos hc]
      rcases hb : dictGet l "base" with _ | b
      · simp only [hb]
        exact ih'
      · simp only [hb]
        by_cases hbn : b ≠ PyVal.vnone
        · simp only [if_pos hbn]
          rcases hi : pyToInt b with _ | n
          · simp only [hi]
            exact ih'
          · simp only [hi]
        · simp only [if_neg hbn]
          exact ih'
    · simp only [if_neg hc]
      exact ih'

/-- Witness for C7's amended scan at the two-layer counterexample input. -/
theorem c7_ceiling_scan_witness :
    get_ceiling_from_clouds
        [[("cover", PyVal.vstr "bkn")],
         [("cover", PyVal.vstr "VV"), ("base", PyVal.vstr "1200")]] =
      .ok (List.findSome? usableCeiling
        [[("cover", PyVal.vstr "bkn")],
         [("cover", PyVal.vstr "VV"), ("base", PyVal.vstr "1200")]]) ∧
    List.findSome? usableCeiling
        [[("cover", PyVal.vstr "bkn")],
         [("cover", PyVal.vstr "VV"), ("base", PyVal.vstr "1200")]] = some 1200 :=
  ⟨c7_ceiling_scan _ (by
      intro l hl
      simp only [List.mem_cons, List.not_mem_nil, or_false] at hl
      rcases hl with rfl | rfl
      · exact ⟨"bkn", rfl⟩
      · exact ⟨"VV", rfl⟩),
   rfl⟩

/-- C6 counterexample: at a period with `wdir = 0`, `wspd = 5` and a present
gust value of 0, the wind description is the literal "VRB at 5 kt" — not
"variable at 5 kt" as the claim words it — and no " gusting 0 kt" suffix is
appended even though a gust value is present (the code tests truthiness, not
presence). -/
theorem c6_counterexample :
    (decode_period_wind (some (.vint 0)) (some (.vint 5)) (some (.vint 0))).1 =
      some "VRB at 5 kt" ∧
    ("VRB at 5 kt" : String) ≠ "variable at 5 kt" ∧
    (decode_period_wind (some (.vint 0)) (some (.vint 5)) (some (.vint 0))).1 ≠
      some "VRB at 5 kt gusting 0 kt" ∧
    (decode_period_wind (some (.vint 0)) (some (.vint 5)) (some (.vint 0))).1 ≠
      some "variable at 5 kt gusting 0 kt" :=
  ⟨rfl, by decide, by decide, by decide⟩

/-- C6 amended: in a decoded TAF period having both a `wdir` and a `wspd`
entry with non-null speed, a null-or-zero direction renders as
"VRB at N kt" (the METAR abbreviation for variable — never a compass
bearing); a nonzero integer direction renders "<deg>° (<cardinal>) at
<speed> kt"; " gusting <gust> kt" is appended exactly when the gust entry is
present and truthy (nonzero); a missing `wdir` key produces no description at
all; and the cardinal sector index equals round-half-up(deg / 22.5) mod 16,
with 0°↦N, 90°↦E, 180°↦S, 270°↦W, 360°↦N. -/
theorem c6_wind_description :
    (∀ s : ℤ, (decode_period_wind (some .vnone) (some (.vint s)) none).1 =
        some ("VRB at " ++ toString s ++ " kt")) ∧
    (∀ s : ℤ, (decode_period_wind (some (.vint 0)) (some (.vint s)) none).1 =
        some ("VRB at " ++ toString s ++ " kt")) ∧
    (∀ d s : ℤ, d ≠ 0 →
      (decode_period_wind (some (.vint d)) (some (.vint s)) none).1 =
        some (toString d ++ "° (" ++ cardOfRat ((d : ℤ) : ℚ) ++ ") at " ++
          toString s ++ " kt")) ∧
    (∀ d s g : ℤ, g ≠ 0 →
      (decode_period_wind (some (.vint d)) (some (.vint s)) (some (.vint g))).1 =
        ((decode_period_wind (some (.vint d)) (some (.vint s)) none).1).map
          (fun x => x ++ " gusting " ++ toString g ++ " kt")) ∧
    (∀ d s : ℤ,
      (decode_period_wind (some (.vint d)) (some (.vint s)) (some (.vint 0))).1 =
        (decode_period_wind (some (.vint d)) (some (.vint s)) none).1) ∧
    (∀ w g : Option PyVal, (decode_period_wind none w g).1 = none) ∧
    deg_to_cardinal (.vint 0) = some "N" ∧
    deg_to_cardinal (.vint 90) = some "E" ∧
    deg_to_cardinal (.vint 180) = some "S" ∧
    deg_to_cardinal (.vint 270) = some "W" ∧
    deg_to_cardinal (.vint 360) = some "N" ∧
    (∀ q : ℚ, cardIx q = roundHalfUp (q / (45 / 2)) % 16) := by
  have hcard : ∀ (n : ℤ) (i : ℤ) (r : String), cardIx ((n : ℤ) : ℚ) = i →
      dirs16.getD i.toNat "" = r → deg_to_cardinal (.vint n) = some r := by
    intro n i r hi hr
    simp only [deg_to_cardinal, cardOfRat]
    rw [hi, hr]
  refine ⟨?_, ?_, ?_, ?_, ?_, ?_, ?_, ?_, ?_, ?_, ?_, ?_⟩
  · intro s
    simp [decode_period_wind, pyStr, pyTruthyOpt]
  · intro s
    simp [decode_period_wind, pyStr, pyTruthyOpt, pyEqZero]
  · intro d s hd
    have hz : pyEqZero (.vint d) = false := by simp [pyEqZero, hd]
    simp [decode_period_wind, hz, deg_to_cardinal, cardOfRat, pyStr, pyTruthyOpt]
  · intro d s g hg
    have ht : pyTruthy (.vint g) = true := by simp [pyTruthy, hg]
    simp [decode_period_wind, pyTruthyOpt, ht, pyStr]
  · intro d s
    simp [decode_period_wind, pyTruthyOpt, pyTruthy]
  · intro w g
    cases w <;> rfl
  · exact hcard 0 0 "N" (by push_cast; norm_num [cardIx, pymod360, ratFloor]) (by decide)
  · exact hcard 90 4 "E" (by push_cast; norm_num [cardIx, pymod360, ratFloor]) (by decide)
  · exact hcard 180 8 "S" (by push_cast; norm_num [cardIx, pymod360, ratFloor]) (by decide)
  · exact hcard 270 12 "W" (by push_cast; norm_num [cardIx, pymod360, ratFloor]) (by decide)
  · exact hcard 360 0 "N" (by push_cast; norm_num [cardIx, pymod360, ratFloor]) (by decide)
  · intro q
    unfold cardIx pymod360 roundHalfUp
    rw [ratFloor_eq, ratFloor_eq]
    have h1 : (q - 360 * (⌊q / 360⌋ : ℚ)) / (45 / 2) + 1 / 2 =
        (q / (45 / 2) + 1 / 2) - ((16 * ⌊q / 360⌋ : ℤ) : ℚ) := by
      push_cast
      ring
    rw [h1, Int.floor_sub_int, sub_eq_add_neg, ← mul_neg]
    exact Int.add_mul_emod_self_left ..

/-- Witness for C6's amended clauses at direction 250°, speed 12 kt, gust
22 kt. -/
theorem c6_wind_description_witness :
    (decode_period_wind (some (.vint 250)) (some (.vint 12)) none).1 =
      some "250° (WSW) at 12 kt" ∧
    (decode_period_wind (some (.vint 250)) (some (.vint 12)) (some (.vint 22))).1 =
      some "250° (WSW) at 12 kt gusting 22 kt" := by
  have hc : cardOfRat ((250 : ℤ) : ℚ) = "WSW" := by
    have h : cardIx ((250 : ℤ) : ℚ) = 11 := by
      push_cast
      norm_num [cardIx, pymod360, ratFloor]
    unfold cardOfRat
    rw [h]
    decide
  have h3 := c6_wind_description.2.2.1 250 12 (by decide)
  constructor
  · rw [h3, hc]
    decide
  · have h4 := c6_wind_description.2.2.2.1 250 12 22 (by decide)
    rw [h4, h3, hc]
    simp only [Option.map]
    decide

theorem upperChars_eq_self (l : List Char) :
    (∀ c ∈ l, upperChar c = c) → upperChars l = l := by
  induction l with
  | nil => intro _; rfl
  | cons a t ih =>
    intro h
    show upperChar a :: upperChars t = a :: t
    rw [h a (by simp), ih fun c hc => h c (by simp [hc])]

theorem removeAllChar_eq_self (c : Char) (l : List Char) (h : ∀ x ∈ l, x ≠ c) :
    removeAllChar c l = l := by
  unfold removeAllChar
  exact List.filter_eq_self.mpr fun a ha => by simp [h a ha]

theorem removeAllChar_cons_self (c : Char) (l : List Char) :
    removeAllChar c (c :: l) = removeAllChar c l := by
  simp [removeAllChar]

theorem removeAllChar_append (c : Char) (l1 l2 : List Char) :
    removeAllChar c (l1 ++ l2) = removeAllChar c l1 ++ removeAllChar c l2 := by
  simp [removeAllChar]

theorem hasSM_append_SM (l : List Char) : hasSM (l ++ ['S', 'M']) = true := by
  induction l with
  | nil => rfl
  | cons c t ih =>
    cases t with
    | nil => simp [hasSM]
    | cons d u => simpa [hasSM, List.cons_append] using Or.inr ih

theorem hasSM_digits (l : List Char) :
    (∀ c ∈ l, isDigitC c = true) → hasSM l = false := by
  induction l with
  | nil => intro _; rfl
  | cons c t ih =>
    intro h
    cases t with
    | nil => rfl
    | cons d u =>
      have hcS : c ≠ 'S' := ne_of_bool_ne (h c (by simp)) (by decide)
      simp only [hasSM, Bool.or_eq_false_iff]
      exact ⟨by simp [hcS], ih fun x hx => h x (by simp [hx])⟩

theorem removeSM_digits_SM (l : List Char) :
    (∀ c ∈ l, isDigitC c = true) → removeSM (l ++ ['S', 'M']) = l := by
  induction l with
  | nil => intro _; rfl
  | cons c t ih =>
    intro h
    have hcS : c ≠ 'S' := ne_of_bool_ne (h c (by simp)) (by decide)
    cases t with
    | nil => simp [removeSM, hcS]
    | cons d u =>
      simp only [List.cons_append, removeSM, hcS, false_and, if_false]
      exact congrArg (List.cons c) (ih fun x hx => h x (by simp [hx]))

/-- Characters appearing in visibility tokens are unaffected by `strip` and
`upper`. -/
theorem vis_chars_fixed (l : List Char)
    (h : ∀ c ∈ l, isDigitC c = true ∨ c = '+' ∨ c = 'P' ∨ c = 'S' ∨ c = 'M') :
    upperChars (stripChars l) = l := by
  have hws : ∀ c ∈ l, isPyWS c = false := by
    intro c hc
    rcases h c hc with hd | rfl | rfl | rfl | rfl
    · exact digit_not_ws hd
    all_goals rfl
  rw [stripChars_eq_self l hws]
  refine upperChars_eq_self l fun c hc => ?_
  rcases h c hc with hd | rfl | rfl | rfl | rfl
  · exact digit_upper hd
  all_goals rfl

/-- C4: the visibility parser passes numbers through as floats; "10" ↦ 10.0,
"10+" ↦ 10.0, "P6SM" ↦ 6.0, "6SM" ↦ 6.0; generally a digit string with a
trailing '+', a P…SM wrapper, or a bare SM suffix parses to its numeric
value; unparseable input ("XYZ") and a null value yield absence (not
zero). -/
theorem c4_visibility_parsing :
    (∀ n : ℤ, parse_visibility (.vint n) = some (n : ℚ)) ∧
    (∀ q : ℚ, parse_visibility (.vfloat q) = some q) ∧
    parse_visibility (.vstr "10") = some 10 ∧
    parse_visibility (.vstr "10+") = some 10 ∧
    parse_visibility (.vstr "P6SM") = some 6 ∧
    parse_visibility (.vstr "6SM") = some 6 ∧
    (∀ ds : List Char, ds ≠ [] → (∀ c ∈ ds, isDigitC c = true) →
      parse_visibility (.vstr (String.mk (ds ++ ['+']))) = some (natOfDigits ds : ℚ) ∧
      parse_visibility (.vstr (String.mk ('P' :: ds ++ ['S', 'M']))) =
        some (natOfDigits ds : ℚ) ∧
      parse_visibility (.vstr (String.mk (ds ++ ['S', 'M']))) = some (natOfDigits ds : ℚ)) ∧
    parse_visibility (.vstr "XYZ") = none ∧
    parse_visibility .vnone = none := by
  refine ⟨fun n => rfl, fun q => rfl, rfl, rfl, rfl, rfl, ?_, rfl, rfl⟩
  intro ds hne hd
  have hplus : ∀ x ∈ ds, x ≠ '+' := fun x hx => ne_of_bool_ne (hd x hx) (by decide)
  have hP : ∀ x ∈ ds, x ≠ 'P' := fun x hx => ne_of_bool_ne (hd x hx) (by decide)
  have hfilterP : List.filter (fun x => x ≠ 'P') ds = ds :=
    List.filter_eq_self.mpr fun a ha => by simp [hP a ha]
  have e3 : containsChar 'P' ds = false := containsChar_eq_false _ _ hP
  have e4 : hasSM ds = false := hasSM_digits ds hd
  have e5 : pyFloatOfChars ds = some (natOfDigits ds : ℚ) := pyFloat_digits ds hne hd
  refine ⟨?_, ?_, ?_⟩
  · -- trailing '+'
    have e0 : upperChars (stripChars (ds ++ ['+'])) = ds ++ ['+'] := by
      refine vis_chars_fixed _ fun c hc => ?_
      rcases List.mem_append.mp hc with h1 | h1
      · exact Or.inl (hd c h1)
      · simp at h1
        simp [h1]
    have e1 : containsChar '+' (ds ++ ['+']) = true :=
      containsChar_eq_true _ _ (by simp)
    have e2 : removeAllChar '+' (ds ++ ['+']) = ds := by
      rw [removeAllChar_append, removeAllChar_eq_self _ _ hplus]
      simp [removeAllChar]
    show parse_visibility_str (ds ++ ['+']) = some (natOfDigits ds : ℚ)
    simp only [parse_visibility_str, e0, e1, e2, e3, e4, e5, if_true,
      Bool.false_eq_true, false_and, if_false]
  · -- P…SM wrapper
    have e0 : upperChars (stripChars ('P' :: ds ++ ['S', 'M'])) = 'P' :: ds ++ ['S', 'M'] := by
      refine vis_chars_fixed _ fun c hc => ?_
      simp only [List.cons_append, List.mem_cons, List.mem_append] at hc
      rcases hc with rfl | hc | hc
      · simp
      · exact Or.inl (hd c hc)
      · simp at hc
        rcases hc with rfl | rfl <;> simp
    have e1 : containsChar '+' ('P' :: ds ++ ['S', 'M']) = false := by
      refine containsChar_eq_false _ _ fun x hx => ?_
      simp only [List.cons_append, List.mem_cons, List.mem_append] at hx
      rcases hx with rfl | hx | hx
      · decide
      · exact hplus x hx
      · simp at hx
        rcases hx with rfl | rfl <;> decide
    have e1b : containsChar 'P' ('P' :: ds ++ ['S', 'M']) = true :=
      containsChar_eq_true _ _ (by simp)
    have e1c : hasSM ('P' :: ds ++ ['S', 'M']) = true := hasSM_append_SM ('P' :: ds)
    have e2 : removeSM (removeAllChar 'P' ('P' :: ds ++ ['S', 'M'])) = ds := by
      have hrm : removeAllChar 'P' ('P' :: ds ++ ['S', 'M']) = ds ++ ['S', 'M'] := by
        rw [show ('P' :: ds ++ ['S', 'M']) = 'P' :: (ds ++ ['S', 'M']) from rfl,
          removeAllChar_cons_self, removeAllChar_append, removeAllChar_eq_self _ _ hP,
          removeAllChar_eq_self _ _ (by
            intro x hx
            simp at hx
            rcases hx with rfl | rfl <;> decide)]
      rw [hrm]
      exact removeSM_digits_SM ds hd
    show parse_visibility_str ('P' :: ds ++ ['S', 'M']) = some (natOfDigits ds : ℚ)
    simp only [parse_visibility_str, e0, e1, e1b, e1c, e2, e3, e4, e5,
      Bool.false_eq_true, if_false, true_and, if_true]
  · -- bare SM suffix
    have e0 : upperChars (stripChars (ds ++ ['S', 'M'])) = ds ++ ['S', 'M'] := by
      refine vis_chars_fixed _ fun c hc => ?_
      rcases List.mem_append.mp hc with h1 | h1
      · exact Or.inl (hd c h1)
      · simp at h1
        rcases h1 with rfl | rfl <;> simp
    have e1 : containsChar '+' (ds ++ ['S', 'M']) = false := by
      refine containsChar_eq_false _ _ fun x hx => ?_
      rcases List.mem_append.mp hx with h1 | h1
      · exact hplus x h1
      · simp at h1
        rcases h1 with rfl | rfl <;> decide
    have e1b : containsChar 'P' (ds ++ ['S', 'M']) = false := by
      refine containsChar_eq_false _ _ fun x hx => ?_
      rcases List.mem_append.mp hx with h1 | h1
      · exact hP x h1
      · simp at h1
        rcases h1 with rfl | rfl <;> decide
    have e1c : hasSM (ds ++ ['S', 'M']) = true := hasSM_append_SM ds
    have e2 : removeSM (ds ++ ['S', 'M']) = ds := removeSM_digits_SM ds hd
    show parse_visibility_str (ds ++ ['S', 'M']) = some (natOfDigits ds : ℚ)
    simp only [parse_visibility_str, e0, e1, e1b, e1c, e2, e3, e4, e5,
      Bool.false_eq_true, if_false, false_and, if_true]

/-- Witness for C4's general digit-string clauses at the digits "12". -/
theorem c4_visibility_parsing_witness :
    parse_visibility (.vstr (String.mk ('1' :: '2' :: ['+']))) = some 12 ∧
    parse_visibility (.vstr (String.mk ('P' :: '1' :: '2' :: ['S', 'M']))) = some 12 ∧
    parse_visibility (.vstr (String.mk ('1' :: '2' :: ['S', 'M']))) = some 12 := by
  have h := c4_visibility_parsing.2.2.2.2.2.2.1 ['1', '2'] (by decide) (by decide)
  have hnat : ((natOfDigits ['1', '2'] : ℕ) : ℚ) = 12 := by
    rw [show natOfDigits ['1', '2'] = 12 from by decide]
    norm_num
  refine ⟨?_, ?_, ?_⟩
  · exact h.1.trans (by rw [hnat])
  · exact h.2.1.trans (by rw [hnat])
  · exact h.2.2.trans (by rw [hnat])

theorem bool_contra {p : Char → Bool} {c : Char} (h1 : p c = true) (h2 : p c = false) :
    False := by rw [h1] at h2; exact Bool.noConfusion h2

theorem ws_not_digit {c : Char} (h : isPyWS c = true) : isDigitC c = false := by
  rcases ws_mem h with rfl | rfl | rfl | rfl | rfl | rfl <;> rfl

theorem num4_digits {a b c d : Char} {y : ℤ} (h : num4 a b c d = some y) :
    isDigitC a = true ∧ isDigitC b = true ∧ isDigitC c = true ∧ isDigitC d = true := by
  unfold num4 at h
  split at h
  · next hc => exact hc
  · exact absurd h (by simp)

theorem num2_digits {a b : Char} {y : ℤ} (h : num2 a b = some y) :
    isDigitC a = true ∧ isDigitC b = true := by
  unfold num2 at h
  split at h
  · next hc => exact hc
  · exact absurd h (by simp)

/-- A successful `strptime` parse pins the string's shape: it starts with a
digit, contains a `'-'`, and contains no `'T'`. -/
theorem strptime_some_facts {s : List Char} {dt : PyDateTime}
    (h : fromStrptimeChars s = some dt) :
    (∃ c0, s.head? = some c0 ∧ isDigitC c0 = true) ∧ ('-' : Char) ∈ s ∧
      ∀ c ∈ s, c ≠ 'T' := by
  unfold fromStrptimeChars at h
  split at h
  · next y1 y2 y3 y4 m1 m2 d1 d2 h1 h2 n1 n2 s1 s2 =>
    split at h
    · next y mo dy hh mi ss hy hm hd2 hh2 hn2 hs2 =>
      obtain ⟨hy1, hy2, hy3, hy4⟩ := num4_digits hy
      obtain ⟨hm1, hm2⟩ := num2_digits hm
      obtain ⟨hd1, hd2d⟩ := num2_digits hd2
      obtain ⟨hh1, hh2d⟩ := num2_digits hh2
      obtain ⟨hn1, hn2d⟩ := num2_digits hn2
      obtain ⟨hs1, hs2d⟩ := num2_digits hs2
      refine ⟨⟨y1, rfl, hy1⟩, by simp, ?_⟩
      intro c hc
      simp only [List.mem_cons, List.not_mem_nil, or_false] at hc
      rcases hc with rfl | rfl | rfl | rfl | rfl | rfl | rfl | rfl | rfl | rfl | rfl |
        rfl | rfl | rfl | rfl | rfl | rfl | rfl | rfl <;>
        first
        | decide
        | exact ne_of_bool_ne (by assumption) (by decide)
    · exact absurd h (by simp)
  · exact absurd h (by simp)

/-- A successful `int()` parse of a string means: after stripping, it is an
optional sign followed by one or more digits. -/
theorem pyInt_strip_shape {l : List Char} {n : ℤ} (h : pyIntOfChars l = some n) :
    ∃ ds, ds ≠ [] ∧ (∀ c ∈ ds, isDigitC c = true) ∧
      (stripChars l = ds ∨ stripChars l = '+' :: ds ∨ stripChars l = '-' :: ds) := by
  have hcons : ∀ (a : Char), (stripChars l).head? = some a →
      stripChars l = a :: (stripChars l).tail := by
    intro a ha
    cases hl : stripChars l with
    | nil => rw [hl] at ha; exact absurd ha (by simp)
    | cons b u =>
      rw [hl] at ha
      simp only [List.head?] at ha
      injection ha with hba
      rw [hba]
      rfl
  unfold pyIntOfChars at h
  by_cases h1 : (stripChars l).head? = some '+'
  · rw [if_pos h1] at h
    split at h
    · next hc =>
      exact ⟨(stripChars l).tail, hc.1,
        fun c hcc => List.all_eq_true.mp hc.2 c hcc, Or.inr (Or.inl (hcons _ h1))⟩
    · exact absurd h (by simp)
  · rw [if_neg h1] at h
    by_cases h2 : (stripChars l).head? = some '-'
    · rw [if_pos h2] at h
      split at h
      · next hc =>
        exact ⟨(stripChars l).tail, hc.1,
          fun c hcc => List.all_eq_true.mp hc.2 c hcc, Or.inr (Or.inr (hcons _ h2))⟩
      · exact absurd h (by simp)
    · rw [if_neg h2] at h
      split at h
      · next hc =>
        exact ⟨stripChars l, hc.1, fun c hcc => List.all_eq_true.mp hc.2 c hcc, Or.inl rfl⟩
      · exact absurd h (by simp)

theorem pyInt_no_T {l : List Char} {n : ℤ} (h : pyIntOfChars l = some n) :
    containsChar 'T' l = false := by
  obtain ⟨ds, _, hds, hshape⟩ := pyInt_strip_shape h
  obtain ⟨pre, post, hdecomp, hpre, hpost⟩ := strip_decomp l
  refine containsChar_eq_false _ _ fun x hx => ?_
  rw [hdecomp] at hx
  rcases List.mem_append.mp hx with hx1 | hx2
  · rcases List.mem_append.mp hx1 with hxa | hxb
    · exact ne_of_bool_ne (hpre x hxa) (by decide)
    · rcases hshape with he | he | he <;> rw [he] at hxb
      · exact ne_of_bool_ne (hds x hxb) (by decide)
      · rcases List.mem_cons.mp hxb with rfl | hxc
        · decide
        · exact ne_of_bool_ne (hds x hxc) (by decide)
      · rcases List.mem_cons.mp hxb with rfl | hxc
        · decide
        · exact ne_of_bool_ne (hds x hxc) (by decide)
  · exact ne_of_bool_ne (hpost x hx2) (by decide)

theorem pyInt_no_strptime {l : List Char} {n : ℤ} (h : pyIntOfChars l = some n) :
    fromStrptimeChars l = none := by
  cases hf : fromStrptimeChars l with
  | none => rfl
  | some dt =>
    exfalso
    obtain ⟨⟨c0, hc0, hc0d⟩, hdash, _⟩ := strptime_some_facts hf
    obtain ⟨ds, hne, hds, hshape⟩ := pyInt_strip_shape h
    obtain ⟨pre, post, hdecomp, hpre, hpost⟩ := strip_decomp l
    cases hp : pre with
    | cons p ps =>
      have hlh : l.head? = some p := by
        rw [hdecomp, hp]
        rfl
      rw [hlh] at hc0
      injection hc0 with hpc
      have hwp : isPyWS p = true := hpre p (by rw [hp]; simp)
      have hdp : isDigitC p = true := by rw [hpc]; exact hc0d
      exact bool_contra hdp (ws_not_digit hwp)
    | nil =>
      rcases hshape with he | he | he
      · have hdm : ('-' : Char) ∈ ds ++ post := by
          rw [hdecomp, hp, he] at hdash
          simpa using hdash
        rcases List.mem_append.mp hdm with hd1 | hd2
        · exact bool_contra (hds '-' hd1) (by decide)
        · exact bool_contra (hpost '-' hd2) (by decide)
      · have hlh : l.head? = some '+' := by
          rw [hdecomp, hp, he]
          rfl
        rw [hlh] at hc0
        injection hc0 with hpc
        rw [← hpc] at hc0d
        exact Bool.noConfusion ((by decide : isDigitC '+' = false) ▸ hc0d)
      · have hlh : l.head? = some '-' := by
          rw [hdecomp, hp, he]
          rfl
        rw [hlh] at hc0
        injection hc0 with hpc
        rw [← hpc] at hc0d
        exact Bool.noConfusion ((by decide : isDigitC '-' = false) ▸ hc0d)

theorem T_no_strptime {l : List Char} (h : containsChar 'T' l = true) :
    fromStrptimeChars l = none := by
  cases hf : fromStrptimeChars l with
  | none => rfl
  | some dt =>
    exfalso
    obtain ⟨_, _, hnoT⟩ := strptime_some_facts hf
    unfold containsChar at h
    obtain ⟨x, hx, hxT⟩ := List.any_eq_true.mp h
    exact hnoT x hx (by simpa using hxT)

/-- C8 counterexample: the numeric input 0 is falsy, so the localizer
short-circuits to empty strings in all three slots without attempting any
parse, whereas the claim's attempt order (first success wins) requires the
epoch-0 rendering. -/
theorem c8_counterexample :
    convert_to_local_time ⟨0, "UTC"⟩ (.vint 0) = ⟨"", "", "", none⟩ ∧
    claim_time_localizer ⟨0, "UTC"⟩ (.vint 0) =
      ⟨"1970-01-01 00:00 UTC", "1970-01-01 00:00 UTC", "01/01 00:00",
        some "1970-01-01T00:00:00+00:00"⟩ ∧
    ("" : String) ≠ "1970-01-01 00:00 UTC" :=
  ⟨rfl, by decide, by decide⟩

/-- C8 amended: for every truthy input, the localizer attempts, in order,
(a) Unix epoch seconds for numeric values and integer-looking strings,
(b) ISO-8601 (after replacing 'Z' with '+00:00') when the string contains a
literal 'T', (c) the fixed `YYYY-MM-DD HH:MM:SS` pattern as UTC; the first
successful parse wins, and if every parse fails the original input is
returned unchanged (stringified) in all three string slots.  Falsy inputs
(0, 0.0, "", None) short-circuit to empty strings in all three slots
instead. -/
theorem c8_time_localizer (tz : Tz) (v : PyVal) :
    convert_to_local_time tz v =
      if pyTruthy v then claim_time_localizer tz v else ⟨"", "", "", none⟩ := by
  by_cases hv : pyTruthy v = true
  case neg =>
    rw [if_neg hv]
    unfold convert_to_local_time
    rw [if_pos hv]
  case pos =>
    rw [if_pos hv]
    unfold convert_to_local_time
    rw [if_neg (not_not_intro hv)]
    cases v with
    | vnone => simp [pyTruthy] at hv
    | vint n =>
      simp only [claim_time_localizer, claim_epoch_attempt, claim_iso_attempt,
        claim_strptime_attempt]
      cases hf : fromtimestampUsec (n * 1000000) with
      | ok dt => simp [hf, Except.toOption]
      | error e => simp [hf, Except.toOption, fallbackTimes]
    | vfloat q =>
      simp only [claim_time_localizer, claim_epoch_attempt, claim_iso_attempt,
        claim_strptime_attempt]
      cases hf : fromtimestampUTC q with
      | ok dt => simp [hf, Except.toOption]
      | error e => simp [hf, Except.toOption, fallbackTimes]
    | vobj r =>
      simp [claim_time_localizer, claim_epoch_attempt, claim_iso_attempt,
        claim_strptime_attempt]
    | vstr s =>
      simp only [claim_time_localizer, claim_epoch_attempt, claim_iso_attempt,
        claim_strptime_attempt]
      cases hi : pyIntOfChars s.data with
      | some n =>
        simp only [Option.some_bind]
        cases hf : fromtimestampUsec (n * 1000000) with
        | ok dt => simp [hf, Except.toOption]
        | error e =>
          simp only [Except.toOption]
          rw [pyInt_no_T hi, pyInt_no_strptime hi]
          simp
      | none =>
        simp only [Option.none_bind]
        cases hT : containsChar 'T' s.data with
        | true =>
          simp only [hT, if_true]
          cases hiso : fromIsoChars (replaceZ s.data) with
          | some dt => simp
          | none =>
            rw [T_no_strptime hT]
        | false =>
          simp only [hT, Bool.false_eq_true, if_false]

end AviationWx
